import Mathlib

/-!
Shallow embedding of `src/battleship/script.js` (battleship_V2).

Conventions of the embedding:
* A JS coordinate key `"r,c"` (produced by `keyOf` and decoded by `parseKey`,
  which are mutually inverse and injective on integer pairs) is modelled as the
  pair `(r, c) : Int × Int` itself; `keyOf`/`parseKey` become the evident maps.
  Coordinates are `Int` because the source computes `r - 1`/`c + 1` freely and
  filters with `inBounds` afterwards.
* A JS `Set` (insertion-ordered, duplicate-free) is modelled as a `List` with
  membership test `List.contains` and an append-if-absent `setAdd`, which is
  exactly `Set.prototype.add`'s observable behaviour.
* DOM painting, status text and `localStorage` I/O are dropped; the state they
  display is kept.  `Math.random()` draws are passed in explicitly.
-/

namespace Battleship

/-- Coordinate key: the `"r,c"` string of the source, kept as the pair. -/
abbrev Key := Int × Int

/-- Source `const GRID_SIZE = 10`. -/
def GRID_SIZE : Int := 10

/-- Source `const SHIPS = [5, 3, 2]`. -/
def SHIPS : List Nat := [5, 3, 2]

/-- Source `keyOf(r, c)`: builds the canonical key. -/
def keyOf (r c : Int) : Key := (r, c)

/-- Source `parseKey(k)`: decodes a key back to its coordinates. -/
def parseKey (k : Key) : Int × Int := k

/-- Source `inBounds(r, c)`. -/
def inBounds (r c : Int) : Bool :=
  decide (0 ≤ r) && decide (r < GRID_SIZE) && decide (0 ≤ c) && decide (c < GRID_SIZE)

/-- JS `Set.has`. -/
def setHas (s : List Key) (k : Key) : Bool := s.contains k

/-- JS `Set.add`: append if absent (insertion order preserved). -/
def setAdd (s : List Key) (k : Key) : List Key :=
  if s.contains k then s else s ++ [k]

/-- A board: `{ shipCells, hitCells, missCells }`. -/
structure Board where
  shipCells : List Key
  hitCells : List Key
  missCells : List Key
deriving DecidableEq, Repr

/-- Source `createEmptyBoard()`. -/
def createEmptyBoard : Board := ⟨[], [], []⟩

/-- Source `alreadyShot(board, k)`. -/
def alreadyShot (b : Board) (k : Key) : Bool :=
  setHas b.hitCells k || setHas b.missCells k

/-- Result record of `applyShot` (the `key` field is recoverable as `keyOf r c`). -/
structure ShotResult where
  valid : Bool
  isHit : Bool
deriving DecidableEq, Repr

/-- Source `applyShot(board, targetOwner, r, c)`; the DOM `markCell` call is dropped.
Returns the result record together with the updated board. -/
def applyShot (b : Board) (r c : Int) : ShotResult × Board :=
  let k := keyOf r c
  if alreadyShot b k then (⟨false, false⟩, b)
  else
    let isHit := setHas b.shipCells k
    let b' :=
      if isHit then { b with hitCells := setAdd b.hitCells k }
      else { b with missCells := setAdd b.missCells k }
    (⟨true, isHit⟩, b')

/-- Source `hasWon(defenderBoard)`: `hitCells.size === shipCells.size`. -/
def hasWon (b : Board) : Bool :=
  b.hitCells.length == b.shipCells.length

/-! ### Ship placement -/

/-- One iteration body of the `while (true)` loop of `placeOneShipRandomly`,
at a given random draw (`vertical`, `startR`, `startC`): builds the candidate
run, rejects it when it intersects `shipCells`, otherwise returns the enlarged
`shipCells`. -/
def tryPlaceOneShip (b : Board) (length : Nat) (vertical : Bool)
    (startR startC : Int) : Option (List Key) :=
  let candidate := (List.range length).map (fun i =>
    let r := if vertical then startR + (i : Int) else startR
    let c := if vertical then startC else startC + (i : Int)
    keyOf r c)
  if candidate.any (fun k => setHas b.shipCells k) then none
  else some (candidate.foldl (fun s k => setAdd s k) b.shipCells)

/-- The values `randomInt` can draw for one attempt of `placeOneShipRandomly`:
`vertical ∈ {true, false}`, and per the source, `startR ∈ [0, GRID_SIZE-length]`
and `startC ∈ [0, GRID_SIZE-1]` when vertical, the transpose otherwise. -/
def sampleSpace (length : Nat) : List (Bool × Int × Int) :=
  ((List.range (10 - length + 1)).flatMap (fun sR =>
    (List.range 10).map (fun sC => (true, (sR : Int), (sC : Int))))) ++
  ((List.range 10).flatMap (fun sR =>
    (List.range (10 - length + 1)).map (fun sC => (false, (sR : Int), (sC : Int)))))

/-- Source `placeOneShipRandomly(board, length)`, with the stream of random draws made
explicit: the `while (true)` loop consumes one draw per iteration and exits only
on acceptance; an exhausted stream (`[]`) stands for a loop that is still
running, hence `none`. -/
def placeOneShipRandomly (b : Board) (length : Nat) :
    List (Bool × Int × Int) → Option (List Key)
  | [] => none
  | (v, sR, sC) :: rest =>
    match tryPlaceOneShip b length v sR sC with
    | some cells => some cells
    | none => placeOneShipRandomly b length rest

/-- Decides, by enumerating the whole sample space, that every possible single
attempt on `b` is rejected. -/
def allAttemptsFail (b : Board) (length : Nat) : Bool :=
  (sampleSpace length).all (fun t => (tryPlaceOneShip b length t.1 t.2.1 t.2.2).isNone)

/-! ### AI: hunt / target -/

/-- Source `neighbors4(r, c)`. -/
def neighbors4 (r c : Int) : List (Int × Int) :=
  [(r - 1, c), (r + 1, c), (r, c - 1), (r, c + 1)].filter (fun p => inBounds p.1 p.2)

/-- AI targeting mode: `"HUNT" | "TARGET"`. -/
inductive Mode where
  | HUNT
  | TARGET
deriving DecidableEq, Repr

/-- Source `aiState`: `{ mode, targetQueue, clusterHits }`. -/
structure AiState where
  mode : Mode
  targetQueue : List Key
  clusterHits : List Key
deriving DecidableEq, Repr

/-- The BFS loop of `recomputeClusterFromHit`, with fuel bounding the number of
`queue.shift()` iterations.  Each enqueued key is first added to `visited`, and
only keys of `hits` (plus the root) are ever added, so
`hits.length + 1` shifts suffice; the fuel passed by the wrapper is larger. -/
def clusterBFS (hits : List Key) : Nat → List Key → List Key → List Key
  | 0, visited, _ => visited
  | _ + 1, visited, [] => visited
  | fuel + 1, visited, k :: queue =>
    let step := (neighbors4 (parseKey k).1 (parseKey k).2).foldl
      (fun (acc : List Key × List Key) nb =>
        let nk := keyOf nb.1 nb.2
        if ¬ (acc.1.contains nk) && hits.contains nk then
          (acc.1 ++ [nk], acc.2 ++ [nk])
        else acc)
      (visited, queue)
    clusterBFS hits fuel step.1 step.2

/-- Source `recomputeClusterFromHit(hitKey)`: BFS over the defender's hit cells for the
connected component containing `hitKey`; returns `Array.from(visited)`
(insertion order). -/
def recomputeClusterFromHit (hits : List Key) (hitKey : Key) : List Key :=
  clusterBFS hits (hits.length + 2) [hitKey] [hitKey]

/-- Source `uniquePush(queue, k)`. -/
def uniquePush (queue : List Key) (k : Key) : List Key :=
  if queue.contains k then queue else queue ++ [k]

/-- Source `aiQueueAdjacentsFromHits(clusterHits)`, acting on an explicit queue and
reading the defender board (`userBoard` in source). -/
def aiQueueAdjacentsFromHits (ub : Board) (clusterHits : List Key)
    (queue : List Key) : List Key :=
  clusterHits.foldl (fun q hk =>
    (neighbors4 (parseKey hk).1 (parseKey hk).2).foldl (fun q nb =>
      let nk := keyOf nb.1 nb.2
      if ¬ alreadyShot ub nk then uniquePush q nk else q) q) queue

/-- Inferred ship axis: `"H" | "V"`. -/
inductive Ori where
  | H
  | V
deriving DecidableEq, Repr

/-- Source `inferOrientation(clusterHits)`. -/
def inferOrientation (clusterHits : List Key) : Option Ori :=
  if clusterHits.length < 2 then none
  else
    let coords := clusterHits.map parseKey
    match coords with
    | [] => none
    | c0 :: _ =>
      if coords.all (fun p => p.1 == c0.1) then some Ori.H
      else if coords.all (fun p => p.2 == c0.2) then some Ori.V
      else none

/-- Source `extendLineTargets(clusterHits, orientation)`: front-loads the two
line-extension candidates, keeps adjacency candidates as fallback, and rebuilds
the queue with the extensions first. -/
def extendLineTargets (ub : Board) (clusterHits : List Key) (orientation : Ori)
    (queue : List Key) : List Key :=
  let coords := clusterHits.map parseKey
  match orientation with
  | Ori.H =>
    let row := (coords.headD (0, 0)).1
    let cols := coords.map Prod.snd
    let minC := cols.foldl min (cols.headD 0)
    let maxC := cols.foldl max (cols.headD 0)
    let left := (row, minC - 1)
    let right := (row, maxC + 1)
    let front0 : List Key :=
      if inBounds left.1 left.2 && ¬ alreadyShot ub (keyOf left.1 left.2)
      then [keyOf left.1 left.2] else []
    let front :=
      if inBounds right.1 right.2 && ¬ alreadyShot ub (keyOf right.1 right.2)
      then front0 ++ [keyOf right.1 right.2] else front0
    let q1 := aiQueueAdjacentsFromHits ub clusterHits queue
    front ++ q1.filter (fun k => ¬ front.contains k)
  | Ori.V =>
    let col := (coords.headD (0, 0)).2
    let rows := coords.map Prod.fst
    let minR := rows.foldl min (rows.headD 0)
    let maxR := rows.foldl max (rows.headD 0)
    let up := (minR - 1, col)
    let down := (maxR + 1, col)
    let front0 : List Key :=
      if inBounds up.1 up.2 && ¬ alreadyShot ub (keyOf up.1 up.2)
      then [keyOf up.1 up.2] else []
    let front :=
      if inBounds down.1 down.2 && ¬ alreadyShot ub (keyOf down.1 down.2)
      then front0 ++ [keyOf down.1 down.2] else front0
    let q1 := aiQueueAdjacentsFromHits ub clusterHits queue
    front ++ q1.filter (fun k => ¬ front.contains k)

/-- All 100 grid cells in the row-major order of the source's nested loops. -/
def gridCells : List Key :=
  (List.range 10).flatMap (fun r => (List.range 10).map (fun c => ((r : Int), (c : Int))))

/-- The two pools built by `aiChooseHuntTarget`: `(parityCells, otherCells)`.
The source's single row-major loop with two push targets is a stable partition
of the unshot cells, i.e. two order-preserving filters. -/
def huntPools (ub : Board) : List Key × List Key :=
  (gridCells.filter (fun k => !alreadyShot ub k && (k.1 + k.2) % 2 == 0),
   gridCells.filter (fun k => !alreadyShot ub k && !((k.1 + k.2) % 2 == 0)))

/-- The pool `aiChooseHuntTarget` draws from: `parityCells.length ? parityCells : otherCells`. -/
def huntPool (ub : Board) : List Key :=
  if (huntPools ub).1.length ≠ 0 then (huntPools ub).1 else (huntPools ub).2

/-- Source `aiChooseHuntTarget()`, with the random index (`randomInt(0, pool.length - 1)`)
made explicit; `pool[idx]` with an out-of-range index is JS `undefined`, i.e. `none`. -/
def aiChooseHuntTarget (ub : Board) (idx : Nat) : Option Key :=
  (huntPool ub).get? idx

/-- Source `aiChooseTargetModeCell()`: pop until an unshot key is found; returns the
choice and the drained queue. -/
def aiChooseTargetModeCell (ub : Board) : List Key → Option Key × List Key
  | [] => (none, [])
  | k :: rest =>
    if ¬ alreadyShot ub k then (some k, rest)
    else aiChooseTargetModeCell ub rest

/-- Source `aiDecideNextShot()`: try target mode first, fall back to hunt (resetting
mode and cluster when the queue dries up).  Returns the choice and the updated
`aiState`. -/
def aiDecideNextShot (ub : Board) (st : AiState) (idx : Nat) : Option Key × AiState :=
  match st.mode with
  | Mode.TARGET =>
    match aiChooseTargetModeCell ub st.targetQueue with
    | (some k, q) => (some k, { st with targetQueue := q })
    | (none, q) =>
      let st' : AiState := { mode := Mode.HUNT, targetQueue := q, clusterHits := [] }
      (aiChooseHuntTarget ub idx, st')
  | Mode.HUNT => (aiChooseHuntTarget ub idx, st)

/-- Source `aiAfterHit(hitKey)`: recompute the cluster from the defender's (updated)
hit cells, enqueue adjacents, and, when an orientation is inferred, front-load
the line extensions. -/
def aiAfterHit (ub : Board) (st : AiState) (hitKey : Key) : AiState :=
  let cluster := recomputeClusterFromHit ub.hitCells hitKey
  let q1 := aiQueueAdjacentsFromHits ub cluster st.targetQueue
  match inferOrientation cluster with
  | some ori =>
    { mode := Mode.TARGET, clusterHits := cluster
      targetQueue := extendLineTargets ub cluster ori q1 }
  | none => { mode := Mode.TARGET, clusterHits := cluster, targetQueue := q1 }

/-- Source `aiAfterMiss()`. -/
def aiAfterMiss (st : AiState) : AiState :=
  if st.targetQueue.length = 0 then
    { mode := Mode.HUNT, targetQueue := st.targetQueue, clusterHits := [] }
  else st

/-! ### Turns -/

/-- Source `currentTurn`: `"USER" | "AI"`. -/
inductive Turn where
  | USER
  | AI
deriving DecidableEq, Repr

/-- A per-side tally: `{ hits, misses }`. -/
structure Shots where
  hits : Nat
  misses : Nat
deriving DecidableEq, Repr

/-- The module-level mutable game state of the source (DOM elements and status
strings excluded). -/
structure GameState where
  userBoard : Board
  aiBoard : Board
  currentTurn : Turn
  gameOver : Bool
  userShots : Shots
  aiShots : Shots
  aiState : AiState
deriving DecidableEq, Repr

/-- Source `onUserFireAtAI(e)` at cell `(r, c)`: guards, applies the shot to the AI
board, updates tally/turn/game-over.  UI painting, `setTimeout` scheduling and
`saveGame` calls are dropped; the state they read is returned. -/
def onUserFireAtAI (s : GameState) (r c : Int) : GameState :=
  if s.gameOver then s
  else if s.currentTurn ≠ Turn.USER then s
  else
    let (shot, ab') := applyShot s.aiBoard r c
    if ¬ shot.valid then s
    else if shot.isHit then
      let s1 := { s with aiBoard := ab'
                         userShots := { s.userShots with hits := s.userShots.hits + 1 } }
      if hasWon ab' then { s1 with gameOver := true }
      else { s1 with currentTurn := Turn.USER }
    else
      { s with aiBoard := ab'
               userShots := { s.userShots with misses := s.userShots.misses + 1 }
               currentTurn := Turn.AI }

/-- One iteration of `aiTakeTurnLoop` (the source re-schedules itself via
`setTimeout` after a hit; each scheduled run is one call of this function).
`idx` is the hunt-mode random index.  `none` models the `TypeError` the source
would throw destructuring an `undefined` decision (no cell left to pick). -/
def aiTakeTurnStep (s : GameState) (idx : Nat) : Option GameState :=
  if s.gameOver then some s
  else if s.currentTurn ≠ Turn.AI then some s
  else
    match aiDecideNextShot s.userBoard s.aiState idx with
    | (none, _) => none
    | (some k, st') =>
      let (shot, ub') := applyShot s.userBoard k.1 k.2
      if ¬ shot.valid then some { s with aiState := st' }
      else if shot.isHit then
        let st'' := aiAfterHit ub' st' k
        let s1 := { s with userBoard := ub', aiState := st''
                           aiShots := { s.aiShots with hits := s.aiShots.hits + 1 } }
        if hasWon ub' then some { s1 with gameOver := true }
        else some { s1 with currentTurn := Turn.AI }
      else
        let st'' := aiAfterMiss st'
        some { s with userBoard := ub', aiState := st''
                      aiShots := { s.aiShots with misses := s.aiShots.misses + 1 }
                      currentTurn := Turn.USER }

/-- The non-random, non-DOM part of `resetGame()`: the fresh-game field values
(boards are then populated by `placeAllShipsRandomly`). -/
def resetState (ub ab : Board) : GameState :=
  { userBoard := ub, aiBoard := ab
    userShots := ⟨0, 0⟩, aiShots := ⟨0, 0⟩
    aiState := { mode := Mode.HUNT, targetQueue := [], clusterHits := [] }
    gameOver := false
    currentTurn := Turn.USER }

/-! ### Save / load

The snapshot is modelled after `JSON.parse` of the stored payload: enum-valued
fields are raw strings, and the fields `loadGame` guards with `?.` / `||` /
`Array.isArray` are `Option`s (absent = `none`).  The `ui` strings are display
glue and carry no game state. -/

/-- The parsed persisted record. -/
structure RawSnapshot where
  version : Int
  currentTurn : String
  gameOver : Bool
  userShots : Option Shots
  aiShots : Option Shots
  userShipCells : Option (List Key)
  userHitCells : Option (List Key)
  userMissCells : Option (List Key)
  aiShipCells : Option (List Key)
  aiHitCells : Option (List Key)
  aiMissCells : Option (List Key)
  aiMode : String
  aiTargetQueue : Option (List Key)
  aiClusterHits : Option (List Key)
deriving DecidableEq, Repr

/-- Source `setToArray(s)`: `Array.from` of a JS Set is its insertion-order list. -/
def setToArray (s : List Key) : List Key := s

/-- Source `arrayToSet(a)`: `new Set(a || [])` inserts each element in order,
dropping later duplicates. -/
def arrayToSet (a : Option (List Key)) : List Key :=
  (a.getD []).foldl setAdd []

/-- Source `saveGame()`: flattens the state into the versioned payload (version 2). -/
def saveGame (s : GameState) : RawSnapshot :=
  { version := 2
    currentTurn := match s.currentTurn with | Turn.USER => "USER" | Turn.AI => "AI"
    gameOver := s.gameOver
    userShots := some s.userShots
    aiShots := some s.aiShots
    userShipCells := some (setToArray s.userBoard.shipCells)
    userHitCells := some (setToArray s.userBoard.hitCells)
    userMissCells := some (setToArray s.userBoard.missCells)
    aiShipCells := some (setToArray s.aiBoard.shipCells)
    aiHitCells := some (setToArray s.aiBoard.hitCells)
    aiMissCells := some (setToArray s.aiBoard.missCells)
    aiMode := match s.aiState.mode with | Mode.HUNT => "HUNT" | Mode.TARGET => "TARGET"
    aiTargetQueue := some s.aiState.targetQueue
    aiClusterHits := some s.aiState.clusterHits }

/-- Source `loadGame()` on an already-parsed snapshot (the unparseable-JSON early
return happens before this point; DOM rebuilding and repainting are dropped).
Field-by-field restoration with the source's normalizations:
`currentTurn === "AI" ? "AI" : "USER"`, `mode === "TARGET" ? "TARGET" : "HUNT"`,
`|| {hits: 0, misses: 0}` for tallies, `Array.isArray ? x : []` for queues.
The `version` field is never read. -/
def loadGame (raw : RawSnapshot) : GameState :=
  { userBoard :=
      { shipCells := arrayToSet raw.userShipCells
        hitCells := arrayToSet raw.userHitCells
        missCells := arrayToSet raw.userMissCells }
    aiBoard :=
      { shipCells := arrayToSet raw.aiShipCells
        hitCells := arrayToSet raw.aiHitCells
        missCells := arrayToSet raw.aiMissCells }
    currentTurn := if raw.currentTurn = "AI" then Turn.AI else Turn.USER
    gameOver := raw.gameOver
    userShots := raw.userShots.getD ⟨0, 0⟩
    aiShots := raw.aiShots.getD ⟨0, 0⟩
    aiState :=
      { mode := if raw.aiMode = "TARGET" then Mode.TARGET else Mode.HUNT
        targetQueue := raw.aiTargetQueue.getD []
        clusterHits := raw.aiClusterHits.getD [] } }

/-! ## Derived predicates used by the invariant claims -/

/-- The invariant `hitCells ⊆ shipCells`, element-wise. -/
def hitSubsetShip (b : Board) : Prop := ∀ k ∈ b.hitCells, k ∈ b.shipCells

/-- The invariant `hitCells ∩ missCells = ∅`, element-wise. -/
def hitMissDisjoint (b : Board) : Prop := ∀ k, ¬ (k ∈ b.hitCells ∧ k ∈ b.missCells)

/-- A whole sequence of shots folded through `applyShot`. -/
def applyShots (b : Board) (shots : List (Int × Int)) : Board :=
  shots.foldl (fun b rc => (applyShot b rc.1 rc.2).2) b

theorem setHas_iff {s : List Key} {k : Key} : setHas s k = true ↔ k ∈ s := by
  simp [setHas]

theorem mem_setAdd_self (s : List Key) (k : Key) : k ∈ setAdd s k := by
  unfold setAdd
  split
  · next h => exact setHas_iff.mp h
  · simp

theorem mem_setAdd_of_mem {s : List Key} {k k' : Key} (h : k' ∈ s) : k' ∈ setAdd s k := by
  unfold setAdd
  split
  · exact h
  · simp [h]

theorem mem_setAdd {s : List Key} {k k' : Key} (h : k' ∈ setAdd s k) : k' ∈ s ∨ k' = k := by
  unfold setAdd at h
  split at h
  · exact Or.inl h
  · simpa using h

theorem applyShot_already {b : Board} {r c : Int}
    (h : alreadyShot b (keyOf r c) = true) :
    applyShot b r c = (⟨false, false⟩, b) := by
  simp [applyShot, h]

theorem applyShot_hit {b : Board} {r c : Int}
    (h1 : alreadyShot b (keyOf r c) = false)
    (h2 : setHas b.shipCells (keyOf r c) = true) :
    applyShot b r c =
      (⟨true, true⟩, { b with hitCells := setAdd b.hitCells (keyOf r c) }) := by
  simp [applyShot, h1, h2]

theorem applyShot_miss {b : Board} {r c : Int}
    (h1 : alreadyShot b (keyOf r c) = false)
    (h2 : setHas b.shipCells (keyOf r c) = false) :
    applyShot b r c =
      (⟨true, false⟩, { b with missCells := setAdd b.missCells (keyOf r c) }) := by
  simp [applyShot, h1, h2]

theorem not_mem_hit_of_not_shot {b : Board} {k : Key}
    (h : alreadyShot b k = false) : k ∉ b.hitCells := by
  intro hk
  simp [alreadyShot, setHas_iff.mpr hk] at h

theorem not_mem_miss_of_not_shot {b : Board} {k : Key}
    (h : alreadyShot b k = false) : k ∉ b.missCells := by
  intro hk
  simp [alreadyShot, setHas_iff.mpr hk] at h

/-- One `applyShot` step grows both shot sets and preserves the two board
invariants. -/
theorem applyShot_step (b : Board) (r c : Int) :
    ((∀ k ∈ b.hitCells, k ∈ ((applyShot b r c).2).hitCells) ∧
     (∀ k ∈ b.missCells, k ∈ ((applyShot b r c).2).missCells)) ∧
    (hitMissDisjoint b → hitMissDisjoint (applyShot b r c).2) ∧
    (hitSubsetShip b → hitSubsetShip (applyShot b r c).2) := by
  cases hsh : alreadyShot b (keyOf r c) with
  | true =>
    rw [applyShot_already hsh]
    exact ⟨⟨fun k hk => hk, fun k hk => hk⟩, fun h => h, fun h => h⟩
  | false =>
    cases hhit : setHas b.shipCells (keyOf r c) with
    | true =>
      rw [applyShot_hit hsh hhit]
      refine ⟨⟨fun k hk => mem_setAdd_of_mem hk, fun k hk => hk⟩, ?_, ?_⟩
      · intro hdisj k ⟨hk1, hk2⟩
        rcases mem_setAdd hk1 with h | h
        · exact hdisj k ⟨h, hk2⟩
        · subst h
          exact not_mem_miss_of_not_shot hsh hk2
      · intro hsub k hk
        rcases mem_setAdd hk with h | h
        · exact hsub k h
        · subst h
          exact setHas_iff.mp hhit
    | false =>
      rw [applyShot_miss hsh hhit]
      refine ⟨⟨fun k hk => hk, fun k hk => mem_setAdd_of_mem hk⟩, ?_, ?_⟩
      · intro hdisj k ⟨hk1, hk2⟩
        rcases mem_setAdd hk2 with h | h
        · exact hdisj k ⟨hk1, h⟩
        · subst h
          exact not_mem_hit_of_not_shot hsh hk1
      · intro hsub k hk
        exact hsub k hk

/-- C4. Board coverage invariant: over any sequence of `applyShot` operations,
`hitCells` and `missCells` only ever grow, disjointness of `hitCells` and
`missCells` is preserved, and `hitCells ⊆ shipCells` is preserved. -/
theorem c4_board_coverage_invariant (b : Board) (shots : List (Int × Int)) :
    ((∀ k ∈ b.hitCells, k ∈ (applyShots b shots).hitCells) ∧
     (∀ k ∈ b.missCells, k ∈ (applyShots b shots).missCells)) ∧
    (hitMissDisjoint b → hitMissDisjoint (applyShots b shots)) ∧
    (hitSubsetShip b → hitSubsetShip (applyShots b shots)) := by
  induction shots generalizing b with
  | nil => exact ⟨⟨fun k hk => hk, fun k hk => hk⟩, fun h => h, fun h => h⟩
  | cons rc rest ih =>
    have hstep := applyShot_step b rc.1 rc.2
    have hrest := ih ((applyShot b rc.1 rc.2).2)
    refine ⟨⟨?_, ?_⟩, ?_, ?_⟩
    · intro k hk
      exact hrest.1.1 k (hstep.1.1 k hk)
    · intro k hk
      exact hrest.1.2 k (hstep.1.2 k hk)
    · intro hdisj
      exact hrest.2.1 (hstep.2.1 hdisj)
    · intro hsub
      exact hrest.2.2 (hstep.2.2 hsub)

/-- Witness for C4 at a concrete board and shot sequence, with the invariant
hypotheses discharged. -/
theorem c4_board_coverage_invariant_witness :
    (∀ k ∈ ([((0 : Int), (0 : Int))] : List Key),
      k ∈ (applyShots ⟨[(0, 0)], [(0, 0)], []⟩ [(1, 1), (0, 1)]).hitCells) ∧
    hitMissDisjoint (applyShots ⟨[(0, 0)], [(0, 0)], []⟩ [(1, 1), (0, 1)]) ∧
    hitSubsetShip (applyShots ⟨[(0, 0)], [(0, 0)], []⟩ [(1, 1), (0, 1)]) :=
  ⟨(c4_board_coverage_invariant ⟨[(0, 0)], [(0, 0)], []⟩ [(1, 1), (0, 1)]).1.1,
   (c4_board_coverage_invariant ⟨[(0, 0)], [(0, 0)], []⟩ [(1, 1), (0, 1)]).2.1
     (fun k hk => absurd hk.2 (List.not_mem_nil k)),
   (c4_board_coverage_invariant ⟨[(0, 0)], [(0, 0)], []⟩ [(1, 1), (0, 1)]).2.2
     (by unfold hitSubsetShip; decide)⟩

/-- C7. Re-firing an already-shot coordinate is an invalid no-op, and in
particular the second of two shots at the same coordinate is invalid and
changes nothing. -/
theorem c7_idempotent_refire (b : Board) (r c : Int) :
    (alreadyShot b (keyOf r c) = true →
      applyShot b r c = (⟨false, false⟩, b)) ∧
    ((applyShot ((applyShot b r c).2) r c).1.valid = false ∧
     (applyShot ((applyShot b r c).2) r c).2 = (applyShot b r c).2) := by
  constructor
  · intro h
    exact applyShot_already h
  · have hshot : alreadyShot ((applyShot b r c).2) (keyOf r c) = true := by
      cases hsh : alreadyShot b (keyOf r c) with
      | true => rw [applyShot_already hsh]; exact hsh
      | false =>
        cases hhit : setHas b.shipCells (keyOf r c) with
        | true =>
          rw [applyShot_hit hsh hhit]
          exact Bool.or_eq_true_iff.mpr (Or.inl (setHas_iff.mpr (mem_setAdd_self _ _)))
        | false =>
          rw [applyShot_miss hsh hhit]
          exact Bool.or_eq_true_iff.mpr (Or.inr (setHas_iff.mpr (mem_setAdd_self _ _)))
    rw [applyShot_already hshot]
    exact ⟨rfl, rfl⟩

/-- Witness for C7 at a concrete board and coordinate, with the already-shot
hypothesis discharged. -/
theorem c7_idempotent_refire_witness :
    applyShot ⟨[(2, 2)], [], [(2, 2)]⟩ 2 2 = (⟨false, false⟩, ⟨[(2, 2)], [], [(2, 2)]⟩) ∧
    ((applyShot ((applyShot ⟨[(2, 2)], [], [(2, 2)]⟩ 2 2).2) 2 2).1.valid = false ∧
     (applyShot ((applyShot ⟨[(2, 2)], [], [(2, 2)]⟩ 2 2).2) 2 2).2 =
       (applyShot ⟨[(2, 2)], [], [(2, 2)]⟩ 2 2).2) :=
  ⟨(c7_idempotent_refire ⟨[(2, 2)], [], [(2, 2)]⟩ 2 2).1 (by decide),
   (c7_idempotent_refire ⟨[(2, 2)], [], [(2, 2)]⟩ 2 2).2⟩

/-- C8. Under the `hitCells ⊆ shipCells` invariant (with duplicate-free sets,
as JS `Set`s are), `hasWon` is exact: it returns `true` iff every ship cell is
hit; a board with empty `shipCells` is won. -/
theorem c8_win_exactness (b : Board) (hship : b.shipCells.Nodup)
    (hhit : b.hitCells.Nodup) (hsub : hitSubsetShip b) :
    (hasWon b = true ↔ ∀ k ∈ b.shipCells, k ∈ b.hitCells) ∧
    (b.shipCells = [] → hasWon b = true) := by
  have hlen : hasWon b = true ↔ b.hitCells.length = b.shipCells.length := by
    simp [hasWon]
  have hsubF : b.hitCells.toFinset ⊆ b.shipCells.toFinset := by
    intro x hx
    rw [List.mem_toFinset] at *
    exact hsub x hx
  constructor
  · constructor
    · intro hw k hk
      have hcard : b.shipCells.toFinset.card ≤ b.hitCells.toFinset.card := by
        rw [List.toFinset_card_of_nodup hship, List.toFinset_card_of_nodup hhit]
        exact le_of_eq (hlen.mp hw).symm
      have heq := Finset.eq_of_subset_of_card_le hsubF hcard
      have : k ∈ b.shipCells.toFinset := List.mem_toFinset.mpr hk
      rw [← heq] at this
      exact List.mem_toFinset.mp this
    · intro hall
      have heq : b.hitCells.toFinset = b.shipCells.toFinset := by
        apply Finset.Subset.antisymm hsubF
        intro x hx
        rw [List.mem_toFinset] at *
        exact hall x hx
      apply hlen.mpr
      rw [← List.toFinset_card_of_nodup hship, ← List.toFinset_card_of_nodup hhit, heq]
  · intro hempty
    have : b.hitCells = [] := by
      cases hcase : b.hitCells with
      | nil => rfl
      | cons a l =>
        have := hsub a (by rw [hcase]; exact List.mem_cons_self a l)
        rw [hempty] at this
        exact absurd this (List.not_mem_nil a)
    simp [hasWon, this, hempty]

/-- Witness for C8 at a concrete won board. -/
theorem c8_win_exactness_witness :
    (hasWon ⟨[(0, 0), (0, 1)], [(0, 1), (0, 0)], []⟩ = true ↔
      ∀ k ∈ ([(0, 0), (0, 1)] : List Key), k ∈ ([(0, 1), (0, 0)] : List Key)) ∧
    (([(0, 0), (0, 1)] : List Key) = [] →
      hasWon ⟨[(0, 0), (0, 1)], [(0, 1), (0, 0)], []⟩ = true) :=
  c8_win_exactness ⟨[(0, 0), (0, 1)], [(0, 1), (0, 0)], []⟩
    (by decide) (by decide) (by unfold hitSubsetShip; decide)

/-! ## C1 scenario: three hits on a horizontal ship at row 4, cols 3..5 -/

/-- Defender board holding only the 3-cell ship at row 4, cols 3–5. -/
def demoBoard0 : Board := { shipCells := [(4, 3), (4, 4), (4, 5)], hitCells := [], missCells := [] }

/-- Board after the hit at (4,4). -/
def demoBoard1 : Board := (applyShot demoBoard0 4 4).2

/-- Targeting state after `aiAfterHit` for (4,4). -/
def demoState1 : AiState := aiAfterHit demoBoard1 ⟨Mode.HUNT, [], []⟩ (4, 4)

/-- Board after the further hit at (4,3). -/
def demoBoard2 : Board := (applyShot demoBoard1 4 3).2

/-- Targeting state after `aiAfterHit` for (4,3). -/
def demoState2 : AiState := aiAfterHit demoBoard2 demoState1 (4, 3)

/-- Board after the further hit at (4,5). -/
def demoBoard3 : Board := (applyShot demoBoard2 4 5).2

/-- Targeting state after `aiAfterHit` for (4,5). -/
def demoState3 : AiState := aiAfterHit demoBoard3 demoState2 (4, 5)

/-- C1. Targeting convergence: after recording hits at (4,4), (4,3), (4,5)
against the lone ship at row 4, cols 3–5 (each hit entering the board's hit set
before the corresponding `aiAfterHit` call), the cluster is exactly
{(4,3),(4,4),(4,5)}, the inferred orientation is horizontal, and the target
queue starts with the two line extensions (4,2), (4,6), ahead of every plain
adjacency candidate. -/
theorem c1_targeting_convergence :
    demoState3.mode = Mode.TARGET ∧
    demoState3.clusterHits.length = 3 ∧
    ((4, 3) ∈ demoState3.clusterHits ∧ (4, 4) ∈ demoState3.clusterHits ∧
      (4, 5) ∈ demoState3.clusterHits) ∧
    inferOrientation demoState3.clusterHits = some Ori.H ∧
    demoState3.targetQueue.take 2 = [(4, 2), (4, 6)] := by
  decide

/-! ## C10: deserialization normalizes unrecognized enum strings -/

/-- C10. For every structurally valid snapshot, a `currentTurn` other than
`"AI"` restores as the user's turn and a targeting mode other than `"TARGET"`
restores as `HUNT` — unrecognized enum strings silently load as the fresh-game
defaults. -/
theorem c10_enum_normalization (raw : RawSnapshot) :
    (raw.currentTurn ≠ "AI" → (loadGame raw).currentTurn = Turn.USER) ∧
    (raw.aiMode ≠ "TARGET" → (loadGame raw).aiState.mode = Mode.HUNT) := by
  constructor
  · intro h
    simp [loadGame, h]
  · intro h
    simp [loadGame, h]

/-- Witness for C10 at a concrete snapshot carrying unrecognized enum strings. -/
theorem c10_enum_normalization_witness :
    (loadGame ⟨2, "COMPUTER", false, none, none, none, none, none, none, none, none,
      "SEARCHING", none, none⟩).currentTurn = Turn.USER ∧
    (loadGame ⟨2, "COMPUTER", false, none, none, none, none, none, none, none, none,
      "SEARCHING", none, none⟩).aiState.mode = Mode.HUNT :=
  ⟨(c10_enum_normalization ⟨2, "COMPUTER", false, none, none, none, none, none, none,
      none, none, "SEARCHING", none, none⟩).1 (by decide),
   (c10_enum_normalization ⟨2, "COMPUTER", false, none, none, none, none, none, none,
      none, none, "SEARCHING", none, none⟩).2 (by decide)⟩

/-! ## C5: persistence round trip -/

theorem foldl_setAdd_eq (l : List Key) :
    ∀ acc : List Key, (acc ++ l).Nodup → l.foldl setAdd acc = acc ++ l := by
  induction l with
  | nil => intro acc _; simp
  | cons a t ih =>
    intro acc h
    have hdisj : acc.Disjoint (a :: t) := (List.nodup_append.mp h).2.2
    have ha : a ∉ acc := fun hmem => hdisj hmem (List.mem_cons_self a t)
    have hadd : setAdd acc a = acc ++ [a] := by
      unfold setAdd
      rw [if_neg]
      intro hc
      exact ha (setHas_iff.mp hc)
    have hnd : ((acc ++ [a]) ++ t).Nodup := by
      rw [List.append_assoc, List.singleton_append]
      exact h
    calc (a :: t).foldl setAdd acc = t.foldl setAdd (setAdd acc a) := rfl
      _ = t.foldl setAdd (acc ++ [a]) := by rw [hadd]
      _ = (acc ++ [a]) ++ t := ih (acc ++ [a]) hnd
      _ = acc ++ a :: t := by rw [List.append_assoc, List.singleton_append]

/-- Evaluating `new Set(Array.from(s))` gives back `s` when `s` is duplicate-free (which
every JS `Set` is). -/
theorem arrayToSet_of_nodup {l : List Key} (h : l.Nodup) :
    arrayToSet (some l) = l := by
  unfold arrayToSet
  simpa using foldl_setAdd_eq l [] (by simpa using h)

/-- C5. Round-trip persistence: loading the saved snapshot of any state whose
six board cell sets are duplicate-free (as JS `Set`s always are) restores the
state exactly — boards, turn, game-over flag, tallies and targeting state
included, in particular `TARGET` mode with a non-empty queue and cluster. -/
theorem c5_round_trip (s : GameState)
    (h1 : s.userBoard.shipCells.Nodup) (h2 : s.userBoard.hitCells.Nodup)
    (h3 : s.userBoard.missCells.Nodup) (h4 : s.aiBoard.shipCells.Nodup)
    (h5 : s.aiBoard.hitCells.Nodup) (h6 : s.aiBoard.missCells.Nodup) :
    loadGame (saveGame s) = s := by
  obtain ⟨⟨us1, us2, us3⟩, ⟨as1, as2, as3⟩, turn, go, ush, ash, ⟨m, q, cl⟩⟩ := s
  simp only [Board.mk.injEq] at *
  cases turn <;> cases m <;>
    simp [loadGame, saveGame, setToArray,
      arrayToSet_of_nodup h1, arrayToSet_of_nodup h2, arrayToSet_of_nodup h3,
      arrayToSet_of_nodup h4, arrayToSet_of_nodup h5, arrayToSet_of_nodup h6]

/-- Witness for C5 at a concrete mid-`TARGET` state with a non-empty queue. -/
theorem c5_round_trip_witness :
    loadGame (saveGame
      { userBoard := ⟨[(0, 0), (0, 1)], [(0, 0)], [(5, 5)]⟩
        aiBoard := ⟨[(2, 2)], [], [(3, 3)]⟩
        currentTurn := Turn.AI, gameOver := false
        userShots := ⟨1, 2⟩, aiShots := ⟨1, 1⟩
        aiState := ⟨Mode.TARGET, [(0, 1), (1, 0)], [(0, 0)]⟩ }) =
      { userBoard := ⟨[(0, 0), (0, 1)], [(0, 0)], [(5, 5)]⟩
        aiBoard := ⟨[(2, 2)], [], [(3, 3)]⟩
        currentTurn := Turn.AI, gameOver := false
        userShots := ⟨1, 2⟩, aiShots := ⟨1, 1⟩
        aiState := ⟨Mode.TARGET, [(0, 1), (1, 0)], [(0, 0)]⟩ } :=
  c5_round_trip _ (by decide) (by decide) (by decide) (by decide) (by decide) (by decide)

/-! ## C2: the version field is written but never checked on load -/

/-- C2 counterexample: `saveGame` writes version 2, yet a snapshot with
version 99 is loaded with all its fields trusted — `currentTurn` restores as
the snapshot's `"AI"` and `gameOver` as its `true`, not as the fresh-game
defaults (`USER` turn, game not over) that `resetGame` establishes. -/
theorem c2_version_not_checked_counterexample :
    (saveGame (resetState createEmptyBoard createEmptyBoard)).version = 2 ∧
    (99 : Int) ≠ 2 ∧
    (loadGame ⟨99, "AI", true, some ⟨3, 4⟩, some ⟨5, 6⟩, some [(0, 0)], some [(0, 0)],
      some [(1, 1)], some [(2, 2)], none, none, "TARGET", some [(1, 2)],
      some [(0, 0)]⟩).currentTurn = Turn.AI ∧
    (loadGame ⟨99, "AI", true, some ⟨3, 4⟩, some ⟨5, 6⟩, some [(0, 0)], some [(0, 0)],
      some [(1, 1)], some [(2, 2)], none, none, "TARGET", some [(1, 2)],
      some [(0, 0)]⟩).gameOver = true ∧
    (resetState createEmptyBoard createEmptyBoard).currentTurn = Turn.USER ∧
    (resetState createEmptyBoard createEmptyBoard).gameOver = false := by
  decide

/-- C2 amended: `loadGame` never reads the snapshot's `version` field, so
deserialization behaves identically for every version value — fields of an
unknown- or future-version snapshot are restored (with only the per-field
normalizations) rather than rejected in favour of fresh-game defaults. -/
theorem c2_version_ignored (raw : RawSnapshot) (v : Int) :
    loadGame { raw with version := v } = loadGame raw := rfl

/-! ## C3: placement retry is unbounded, not capped -/

/-- A board on which every cell is occupied, so no ship placement can ever be
accepted. -/
def fullBoard : Board := { shipCells := gridCells, hitCells := [], missCells := [] }

/-- C3 counterexample: on the fully occupied board, every single attempt in the
whole sample space of random draws for a length-2 ship is rejected, and in
particular running the placement loop through the entire sample space yields no
placement — the `while (true)` loop can never exit, and no attempt cap or
`PlacementError` exists in the code. -/
theorem c3_unbounded_retry_counterexample :
    allAttemptsFail fullBoard 2 = true ∧
    placeOneShipRandomly fullBoard 2 (sampleSpace 2) = none := by
  decide

set_option maxRecDepth 4000 in
/-- C3 amended: placement retries are unbounded — there is no attempt cap and
no `PlacementError`; one attempt is total, but on a board admitting no
placement (the fully occupied board) every draw is rejected, so
`placeOneShipRandomly` fails for every finite stream of draws, i.e. the
source's `while (true)` loop never terminates there. -/
theorem c3_unbounded_retry (stream : List (Bool × Int × Int))
    (h : ∀ t ∈ stream, t ∈ sampleSpace 2) :
    placeOneShipRandomly fullBoard 2 stream = none := by
  induction stream with
  | nil => rfl
  | cons t rest ih =>
    have hall : allAttemptsFail fullBoard 2 = true := by decide
    have ht : (tryPlaceOneShip fullBoard 2 t.1 t.2.1 t.2.2).isNone = true :=
      List.all_eq_true.mp hall t (h t (List.mem_cons_self t rest))
    have hnone : tryPlaceOneShip fullBoard 2 t.1 t.2.1 t.2.2 = none :=
      Option.isNone_iff_eq_none.mp ht
    obtain ⟨v, sR, sC⟩ := t
    simp only [placeOneShipRandomly, hnone]
    exact ih (fun t' ht' => h t' (List.mem_cons_of_mem _ ht'))

/-- Witness for the amended C3 at a concrete stream of in-range draws. -/
theorem c3_unbounded_retry_witness :
    placeOneShipRandomly fullBoard 2 [(true, 0, 0), (false, 9, 8)] = none :=
  c3_unbounded_retry [(true, 0, 0), (false, 9, 8)] (by decide)

/-! ## C6: turn transition rule -/

/-- C6. For every valid (not-already-shot) shot while the game is not over:
a hit that does not win keeps the turn with the firing actor, a miss passes it
to the other actor — and the rule is the same for the human-fired
(`onUserFireAtAI`) and the computer-fired (`aiTakeTurnLoop`) case. -/
theorem c6_turn_transition :
    (∀ (s : GameState) (r c : Int),
      s.gameOver = false → s.currentTurn = Turn.USER →
      alreadyShot s.aiBoard (keyOf r c) = false →
      ((applyShot s.aiBoard r c).1.isHit = true →
        hasWon (applyShot s.aiBoard r c).2 = false →
        (onUserFireAtAI s r c).currentTurn = Turn.USER) ∧
      ((applyShot s.aiBoard r c).1.isHit = false →
        (onUserFireAtAI s r c).currentTurn = Turn.AI)) ∧
    (∀ (s : GameState) (k : Key) (st' : AiState) (idx : Nat) (s' : GameState),
      s.gameOver = false → s.currentTurn = Turn.AI →
      aiDecideNextShot s.userBoard s.aiState idx = (some k, st') →
      alreadyShot s.userBoard (keyOf k.1 k.2) = false →
      aiTakeTurnStep s idx = some s' →
      ((applyShot s.userBoard k.1 k.2).1.isHit = true →
        hasWon (applyShot s.userBoard k.1 k.2).2 = false →
        s'.currentTurn = Turn.AI) ∧
      ((applyShot s.userBoard k.1 k.2).1.isHit = false →
        s'.currentTurn = Turn.USER)) := by
  constructor
  · intro s r c hg hu hsh
    constructor
    · intro hhit hwon
      cases hs : setHas s.aiBoard.shipCells (keyOf r c) with
      | false =>
        rw [applyShot_miss hsh hs] at hhit
        exact absurd hhit (by simp)
      | true =>
        rw [applyShot_hit hsh hs] at hwon
        simp [onUserFireAtAI, hg, hu, applyShot_hit hsh hs, hwon]
    · intro hhit
      cases hs : setHas s.aiBoard.shipCells (keyOf r c) with
      | true =>
        rw [applyShot_hit hsh hs] at hhit
        exact absurd hhit (by simp)
      | false =>
        simp [onUserFireAtAI, hg, hu, applyShot_miss hsh hs]
  · intro s k st' idx s' hg ha hdec hsh hstep
    constructor
    · intro hhit hwon
      cases hs : setHas s.userBoard.shipCells (keyOf k.1 k.2) with
      | false =>
        rw [applyShot_miss hsh hs] at hhit
        exact absurd hhit (by simp)
      | true =>
        rw [applyShot_hit hsh hs] at hwon
        simp [aiTakeTurnStep, hg, ha, hdec, applyShot_hit hsh hs, hwon] at hstep
        rw [← hstep]
    · intro hhit
      cases hs : setHas s.userBoard.shipCells (keyOf k.1 k.2) with
      | true =>
        rw [applyShot_hit hsh hs] at hhit
        exact absurd hhit (by simp)
      | false =>
        simp [aiTakeTurnStep, hg, ha, hdec, applyShot_miss hsh hs] at hstep
        rw [← hstep]

/-- A fresh-boards state where the human holds the turn; the AI board carries a
2-cell ship at (0,0)–(0,1). -/
def turnDemoUser : GameState :=
  { userBoard := createEmptyBoard, aiBoard := ⟨[(0, 0), (0, 1)], [], []⟩
    currentTurn := Turn.USER, gameOver := false
    userShots := ⟨0, 0⟩, aiShots := ⟨0, 0⟩, aiState := ⟨Mode.HUNT, [], []⟩ }

/-- An AI-turn state about to hit (0,0) from its target queue. -/
def turnDemoAiHit : GameState :=
  { userBoard := ⟨[(0, 0), (0, 1)], [], []⟩, aiBoard := createEmptyBoard
    currentTurn := Turn.AI, gameOver := false
    userShots := ⟨0, 0⟩, aiShots := ⟨0, 0⟩, aiState := ⟨Mode.TARGET, [(0, 0)], []⟩ }

/-- An AI-turn state about to miss at (5,5) from its target queue. -/
def turnDemoAiMiss : GameState :=
  { userBoard := ⟨[(0, 0), (0, 1)], [], []⟩, aiBoard := createEmptyBoard
    currentTurn := Turn.AI, gameOver := false
    userShots := ⟨0, 0⟩, aiShots := ⟨0, 0⟩, aiState := ⟨Mode.TARGET, [(5, 5)], []⟩ }

/-- Witness for C6: all four transitions at concrete states — human hit keeps
the turn, human miss passes it, AI hit keeps the turn, AI miss passes it. -/
theorem c6_turn_transition_witness :
    (onUserFireAtAI turnDemoUser 0 0).currentTurn = Turn.USER ∧
    (onUserFireAtAI turnDemoUser 5 5).currentTurn = Turn.AI ∧
    (GameState.currentTurn
      ⟨⟨[(0, 0), (0, 1)], [(0, 0)], []⟩, createEmptyBoard, Turn.AI, false,
        ⟨0, 0⟩, ⟨1, 0⟩, ⟨Mode.TARGET, [(1, 0), (0, 1)], [(0, 0)]⟩⟩ = Turn.AI) ∧
    (GameState.currentTurn
      ⟨⟨[(0, 0), (0, 1)], [], [(5, 5)]⟩, createEmptyBoard, Turn.USER, false,
        ⟨0, 0⟩, ⟨0, 1⟩, ⟨Mode.HUNT, [], []⟩⟩ = Turn.USER) :=
  ⟨(c6_turn_transition.1 turnDemoUser 0 0 rfl rfl (by decide)).1 (by decide) (by decide),
   (c6_turn_transition.1 turnDemoUser 5 5 rfl rfl (by decide)).2 (by decide),
   (c6_turn_transition.2 turnDemoAiHit (0, 0) ⟨Mode.TARGET, [], []⟩ 0
      ⟨⟨[(0, 0), (0, 1)], [(0, 0)], []⟩, createEmptyBoard, Turn.AI, false,
        ⟨0, 0⟩, ⟨1, 0⟩, ⟨Mode.TARGET, [(1, 0), (0, 1)], [(0, 0)]⟩⟩
      rfl rfl (by decide) (by decide) (by decide)).1 (by decide) (by decide),
   (c6_turn_transition.2 turnDemoAiMiss (5, 5) ⟨Mode.TARGET, [], []⟩ 0
      ⟨⟨[(0, 0), (0, 1)], [], [(5, 5)]⟩, createEmptyBoard, Turn.USER, false,
        ⟨0, 0⟩, ⟨0, 1⟩, ⟨Mode.HUNT, [], []⟩⟩
      rfl rfl (by decide) (by decide) (by decide)).2 (by decide)⟩

/-! ## C9: hunt-mode selection is total and parity-preferring -/

theorem mem_gridCells_inBounds : ∀ k ∈ gridCells, inBounds k.1 k.2 = true := by
  decide

/-- C9. Whenever at least one grid cell is unshot, the hunt pool is non-empty
(so `randomInt(0, pool.length - 1)` is well-defined and the selection cannot
fail), every possible pick is an in-bounds unshot coordinate, and if any unshot
even-parity cell exists every possible pick has even parity. -/
theorem c9_hunt_total_parity (ub : Board)
    (h : ∃ k ∈ gridCells, alreadyShot ub k = false) :
    (huntPool ub).length ≠ 0 ∧
    (∀ idx, idx < (huntPool ub).length →
      ∃ k, aiChooseHuntTarget ub idx = some k ∧
        inBounds k.1 k.2 = true ∧ alreadyShot ub k = false ∧
        ((∃ k' ∈ gridCells, alreadyShot ub k' = false ∧ (k'.1 + k'.2) % 2 = 0) →
          (k.1 + k.2) % 2 = 0)) := by
  obtain ⟨k0, hk0g, hk0s⟩ := h
  have hpool_ne : (huntPool ub).length ≠ 0 := by
    unfold huntPool
    split
    · assumption
    · next hpar =>
      intro hlen
      have h0 : (huntPools ub).2 = [] := List.length_eq_zero.mp hlen
      by_cases hpk0 : (k0.1 + k0.2) % 2 = 0
      · have : k0 ∈ (huntPools ub).1 := by
          unfold huntPools
          simp only [List.mem_filter]
          exact ⟨hk0g, by simp [hk0s, hpk0]⟩
        have : (huntPools ub).1 ≠ [] := List.ne_nil_of_mem this
        exact hpar (fun hl => this (List.length_eq_zero.mp hl))
      · have : k0 ∈ (huntPools ub).2 := by
          unfold huntPools
          simp only [List.mem_filter]
          exact ⟨hk0g, by simp [hk0s, hpk0]⟩
        rw [h0] at this
        exact absurd this (List.not_mem_nil k0)
  refine ⟨hpool_ne, ?_⟩
  intro idx hidx
  have hget : (huntPool ub).get? idx = some ((huntPool ub).get ⟨idx, hidx⟩) :=
    List.get?_eq_get hidx
  set k := (huntPool ub).get ⟨idx, hidx⟩ with hk
  have hkmem : k ∈ huntPool ub := List.get_mem _ _ hidx
  have hpoolsub : ∀ x ∈ huntPool ub, x ∈ gridCells ∧ alreadyShot ub x = false := by
    intro x hx
    unfold huntPool at hx
    split at hx <;>
    · unfold huntPools at hx
      simp only [List.mem_filter, Bool.and_eq_true, Bool.not_eq_true'] at hx
      exact ⟨hx.1, hx.2.1⟩
  refine ⟨k, hget, (mem_gridCells_inBounds k (hpoolsub k hkmem).1),
    (hpoolsub k hkmem).2, ?_⟩
  intro ⟨k', hk'g, hk's, hk'p⟩
  have hk'mem : k' ∈ (huntPools ub).1 := by
    unfold huntPools
    simp only [List.mem_filter]
    exact ⟨hk'g, by simp [hk's, hk'p]⟩
  have hpar_ne : (huntPools ub).1.length ≠ 0 := by
    intro hl
    rw [List.length_eq_zero.mp hl] at hk'mem
    exact absurd hk'mem (List.not_mem_nil k')
  have hpool_eq : huntPool ub = (huntPools ub).1 := by
    unfold huntPool
    exact if_pos hpar_ne
  have hkpar : k ∈ (huntPools ub).1 := hpool_eq ▸ hkmem
  unfold huntPools at hkpar
  simp only [List.mem_filter, Bool.and_eq_true] at hkpar
  have := hkpar.2.2
  simpa using this

/-- Witness for C9 on the empty board (every cell unshot). -/
theorem c9_hunt_total_parity_witness :
    (huntPool createEmptyBoard).length ≠ 0 ∧
    (∀ idx, idx < (huntPool createEmptyBoard).length →
      ∃ k, aiChooseHuntTarget createEmptyBoard idx = some k ∧
        inBounds k.1 k.2 = true ∧ alreadyShot createEmptyBoard k = false ∧
        ((∃ k' ∈ gridCells, alreadyShot createEmptyBoard k' = false ∧
            (k'.1 + k'.2) % 2 = 0) →
          (k.1 + k.2) % 2 = 0)) :=
  c9_hunt_total_parity createEmptyBoard ⟨(0, 0), by decide, by decide⟩

end Battleship
